import Mathlib

/-!
Verification of the destination-delivery engine of backup.py
(hirusha-adi/backup-files-to-thumbdrive).

The script is embedded shallowly: filesystem effects are supplied as
explicit environments (directory listings, per-attempt copy outcomes,
per-drive query results), and each Python function becomes a Lean
function over those environments.  Logging is not modelled except where
a claim refers to it (recorded as a Boolean flag).  Counts and delays
are modelled as naturals; the script only ever calls with the literals
5 and 1, and Python truthiness of an int n is modelled as n differing
from 0.
-/

namespace BackupScript

/-- One entry of a directory listing, as seen by os.listdir.  A file
carries its creation time (os.path.getctime); a subdirectory carries its
(opaque) nested contents so that preservation of the whole subtree is
expressible. -/
inductive FsEntry where
  | file (name : String) (ctime : Nat)
  | dir (name : String) (contents : List String)
deriving DecidableEq

def FsEntry.name : FsEntry → String
  | .file n _ => n
  | .dir n _ => n

def FsEntry.isFile : FsEntry → Bool
  | .file _ _ => true
  | .dir _ _ => false

def FsEntry.ctime : FsEntry → Nat
  | .file _ c => c
  | .dir _ _ => 0

/-- Python str.endswith on the character sequence of the string. -/
def pyEndsWith (s suffix : String) : Bool :=
  List.isSuffixOf suffix.data s.data

/-- The filter of rotate_backups, line 199 of backup.py:
f.endswith(".7z") and os.path.isfile(os.path.join(directory, f)). -/
def isCandidate (e : FsEntry) : Bool :=
  pyEndsWith e.name ".7z" && e.isFile

/-- The sort key of rotate_backups, line 201: os.path.getctime. -/
def ctimeLE (a b : FsEntry) : Prop := a.ctime ≤ b.ctime

instance : DecidableRel ctimeLE := fun a b => Nat.decLe a.ctime b.ctime

instance : IsTotal FsEntry ctimeLE := ⟨fun a b => Nat.le_total a.ctime b.ctime⟩

instance : IsTrans FsEntry ctimeLE := ⟨fun _ _ _ h h2 => Nat.le_trans h h2⟩

/-- Python slice xs[:-k].  For k = 0 this is xs[:0] = [], not the whole
list; for 1 ≤ k ≤ len it is the first len - k elements; for k > len it
is empty (Nat subtraction saturates exactly as Python clamps). -/
def pyNegSlice (xs : List FsEntry) (k : Nat) : List FsEntry :=
  if k = 0 then [] else xs.take (xs.length - k)

/-- rotate_backups (backup.py lines 194-210) acting on a directory
listing: collect the .7z regular files, sort them ascending by creation
time, and when there are more than max_count of them delete the slice
files[:-max_count].  Deletion is modelled as dropping the doomed names
from the listing; per-file deletion errors (lines 207-208) and listing
errors (lines 209-210) are swallowed by the source and not modelled. -/
def rotate_backups (dir : List FsEntry) (max_count : Nat) : List FsEntry :=
  let files := List.insertionSort ctimeLE (dir.filter isCandidate)
  if max_count < files.length then
    let doomed := (pyNegSlice files max_count).map FsEntry.name
    dir.filter (fun e => decide (e.name ∉ doomed))
  else
    dir

example :
    rotate_backups
      [FsEntry.file "a.7z" 1, FsEntry.file "b.7z" 2, FsEntry.file "c.7z" 3] 2
      = [FsEntry.file "b.7z" 2, FsEntry.file "c.7z" 3] := by decide

example :
    rotate_backups [FsEntry.file "a.7z" 1, FsEntry.file "b.7z" 2] 0
      = [FsEntry.file "a.7z" 1, FsEntry.file "b.7z" 2] := by decide

example :
    rotate_backups [FsEntry.dir "x.7z" ["y"], FsEntry.file "b.txt" 2] 0
      = [FsEntry.dir "x.7z" ["y"], FsEntry.file "b.txt" 2] := by decide

theorem sortedCand_perm (dir : List FsEntry) :
    List.Perm (List.insertionSort ctimeLE (dir.filter isCandidate))
      (dir.filter isCandidate) :=
  List.perm_insertionSort ctimeLE (dir.filter isCandidate)

theorem sortedCand_name_nodup (dir : List FsEntry)
    (h : (dir.map FsEntry.name).Nodup) :
    ((List.insertionSort ctimeLE (dir.filter isCandidate)).map FsEntry.name).Nodup := by
  have hsub : List.Sublist ((dir.filter isCandidate).map FsEntry.name)
      (dir.map FsEntry.name) :=
    (List.filter_sublist dir).map FsEntry.name
  have hcand : ((dir.filter isCandidate).map FsEntry.name).Nodup := h.sublist hsub
  exact (((sortedCand_perm dir).map FsEntry.name).nodup_iff).mpr hcand

theorem filter_not_doomed (t d : List FsEntry)
    (h : ((t ++ d).map FsEntry.name).Nodup) :
    (t ++ d).filter (fun e => decide (e.name ∉ t.map FsEntry.name)) = d := by
  rw [List.map_append] at h
  have hdisj : (t.map FsEntry.name).Disjoint (d.map FsEntry.name) :=
    (List.nodup_append.mp h).2.2
  rw [List.filter_append]
  have ht : t.filter (fun e => decide (e.name ∉ t.map FsEntry.name)) = [] := by
    apply List.filter_eq_nil_iff.mpr
    intro e he
    simp only [decide_eq_true_eq, not_not]
    exact List.mem_map_of_mem FsEntry.name he
  have hd : d.filter (fun e => decide (e.name ∉ t.map FsEntry.name)) = d := by
    apply List.filter_eq_self.mpr
    intro e he
    simp only [decide_eq_true_eq]
    intro hmem
    exact hdisj hmem (List.mem_map_of_mem FsEntry.name he)
  rw [ht, hd, List.nil_append]

theorem filter_not_doomed_take (files : List FsEntry) (m : Nat)
    (h : (files.map FsEntry.name).Nodup) :
    files.filter (fun e => decide (e.name ∉ (files.take m).map FsEntry.name))
      = files.drop m := by
  have h2 := filter_not_doomed (files.take m) (files.drop m)
    (by rw [List.take_append_drop]; exact h)
  rw [List.take_append_drop] at h2
  exact h2

theorem rotate_backups_zero (dir : List FsEntry) : rotate_backups dir 0 = dir := by
  simp only [rotate_backups]
  split
  · simp [pyNegSlice]
  · rfl

theorem rotate_backups_le (dir : List FsEntry) (k : Nat)
    (h : (List.insertionSort ctimeLE (dir.filter isCandidate)).length ≤ k) :
    rotate_backups dir k = dir := by
  simp only [rotate_backups]
  split
  · exact absurd (by assumption) (Nat.not_lt.mpr h)
  · rfl

theorem rotate_backups_gt (dir : List FsEntry) (k : Nat) (hk : k ≠ 0)
    (h : k < (List.insertionSort ctimeLE (dir.filter isCandidate)).length) :
    rotate_backups dir k =
      dir.filter (fun e => decide (e.name ∉
        ((List.insertionSort ctimeLE (dir.filter isCandidate)).take
          ((List.insertionSort ctimeLE (dir.filter isCandidate)).length - k)).map
            FsEntry.name)) := by
  simp only [rotate_backups, pyNegSlice, if_pos h, if_neg hk]

theorem rotate_backups_length (dir : List FsEntry) (k : Nat) (hk : 1 ≤ k)
    (hnodup : (dir.map FsEntry.name).Nodup) :
    ((rotate_backups dir k).filter isCandidate).length
      = min ((dir.filter isCandidate).length) k := by
  have hlen : (List.insertionSort ctimeLE (dir.filter isCandidate)).length
      = (dir.filter isCandidate).length := (sortedCand_perm dir).length_eq
  by_cases hcase : k < (List.insertionSort ctimeLE (dir.filter isCandidate)).length
  · rw [rotate_backups_gt dir k (by omega) hcase]
    rw [List.filter_comm]
    have hperm := ((sortedCand_perm dir).filter
      (fun e => decide (e.name ∉
        ((List.insertionSort ctimeLE (dir.filter isCandidate)).take
          ((List.insertionSort ctimeLE (dir.filter isCandidate)).length - k)).map
            FsEntry.name))).symm
    rw [hperm.length_eq]
    rw [filter_not_doomed_take _ _ (sortedCand_name_nodup dir hnodup)]
    rw [List.length_drop]
    omega
  · rw [rotate_backups_le dir k (Nat.le_of_not_lt hcase)]
    omega

theorem rotate_backups_keeps_newest (dir : List FsEntry) (k : Nat)
    (hnodup : (dir.map FsEntry.name).Nodup) :
    ∀ e ∈ dir, ∀ e2 ∈ dir, isCandidate e = true → isCandidate e2 = true →
      e ∈ rotate_backups dir k → e2 ∉ rotate_backups dir k → e2.ctime ≤ e.ctime := by
  intro e he e2 he2 hce hce2 hkeep hdel
  by_cases hk0 : k = 0
  · subst hk0
    rw [rotate_backups_zero] at hdel
    exact absurd he2 hdel
  by_cases hcase : k < (List.insertionSort ctimeLE (dir.filter isCandidate)).length
  case neg =>
    rw [rotate_backups_le dir k (Nat.le_of_not_lt hcase)] at hdel
    exact absurd he2 hdel
  case pos =>
  rw [rotate_backups_gt dir k hk0 hcase] at hkeep hdel
  have hnf := sortedCand_name_nodup dir hnodup
  have hmeme : e ∈ List.insertionSort ctimeLE (dir.filter isCandidate) :=
    ((sortedCand_perm dir).mem_iff).mpr (List.mem_filter.mpr ⟨he, hce⟩)
  have hmeme2 : e2 ∈ List.insertionSort ctimeLE (dir.filter isCandidate) :=
    ((sortedCand_perm dir).mem_iff).mpr (List.mem_filter.mpr ⟨he2, hce2⟩)
  have hq : e.name ∉
      ((List.insertionSort ctimeLE (dir.filter isCandidate)).take
        ((List.insertionSort ctimeLE (dir.filter isCandidate)).length - k)).map
          FsEntry.name := by
    have := (List.mem_filter.mp hkeep).2
    simpa using this
  have hq2 : e2.name ∈
      ((List.insertionSort ctimeLE (dir.filter isCandidate)).take
        ((List.insertionSort ctimeLE (dir.filter isCandidate)).length - k)).map
          FsEntry.name := by
    by_contra hcon
    exact hdel (List.mem_filter.mpr ⟨he2, by simpa using hcon⟩)
  obtain ⟨x, hx, hxname⟩ := List.mem_map.mp hq2
  have hxfiles : x ∈ List.insertionSort ctimeLE (dir.filter isCandidate) :=
    (List.take_sublist _ _).subset hx
  have hxe2 : x = e2 := List.inj_on_of_nodup_map hnf hxfiles hmeme2 hxname
  subst hxe2
  have hedrop : e ∈ (List.insertionSort ctimeLE (dir.filter isCandidate)).drop
      ((List.insertionSort ctimeLE (dir.filter isCandidate)).length - k) := by
    have hsplit := List.take_append_drop
      ((List.insertionSort ctimeLE (dir.filter isCandidate)).length - k)
      (List.insertionSort ctimeLE (dir.filter isCandidate))
    have hmem2 : e ∈ (List.insertionSort ctimeLE (dir.filter isCandidate)).take
          ((List.insertionSort ctimeLE (dir.filter isCandidate)).length - k)
        ++ (List.insertionSort ctimeLE (dir.filter isCandidate)).drop
          ((List.insertionSort ctimeLE (dir.filter isCandidate)).length - k) := by
      rw [hsplit]; exact hmeme
    rcases List.mem_append.mp hmem2 with hcontra | hok
    · exact absurd (List.mem_map_of_mem FsEntry.name hcontra) hq
    · exact hok
  have hsorted : List.Sorted ctimeLE (List.insertionSort ctimeLE (dir.filter isCandidate)) :=
    List.sorted_insertionSort ctimeLE (dir.filter isCandidate)
  rw [← List.take_append_drop
    ((List.insertionSort ctimeLE (dir.filter isCandidate)).length - k)
    (List.insertionSort ctimeLE (dir.filter isCandidate))] at hsorted
  exact (List.pairwise_append.mp hsorted).2.2 x hx e hedrop

/-- C1 counterexample: in a directory holding one candidate archive and
with max_count = 0, rotate_backups deletes nothing — the slice
files[:-0] is empty — so one candidate remains where the claim demands
min(1, 0) = 0. -/
theorem rotate_backups_zero_keeps_all_cex :
    ((rotate_backups [FsEntry.file "a.7z" 1] 0).filter isCandidate).length
      ≠ min (([FsEntry.file "a.7z" 1].filter isCandidate).length) 0 := by decide

/-- C1 (amended): for every directory listing with distinct entry names
and every max_count ≥ 1, rotate_backups leaves exactly
min(n, max_count) candidate files and every kept candidate is at least
as recently created as every deleted one; with max_count = 0 the slice
files[:-0] is empty, so rotation deletes nothing and leaves the listing
unchanged. -/
theorem rotate_backups_retention_amended (dir : List FsEntry) (k : Nat)
    (hk : 1 ≤ k) (hnodup : (dir.map FsEntry.name).Nodup) :
    ((rotate_backups dir k).filter isCandidate).length
        = min ((dir.filter isCandidate).length) k ∧
    (∀ e ∈ dir, ∀ e2 ∈ dir, isCandidate e = true → isCandidate e2 = true →
        e ∈ rotate_backups dir k → e2 ∉ rotate_backups dir k → e2.ctime ≤ e.ctime) ∧
    rotate_backups dir 0 = dir :=
  ⟨rotate_backups_length dir k hk hnodup,
   rotate_backups_keeps_newest dir k hnodup,
   rotate_backups_zero dir⟩

/-- C1 witness: a concrete three-candidate directory with max_count = 2
keeps exactly two candidates. -/
theorem rotate_backups_retention_amended_witness :
    ((rotate_backups
        [FsEntry.file "a.7z" 3, FsEntry.file "b.7z" 1, FsEntry.file "c.7z" 2]
        2).filter isCandidate).length = 2 := by
  have h := rotate_backups_retention_amended
    [FsEntry.file "a.7z" 3, FsEntry.file "b.7z" 1, FsEntry.file "c.7z" 2]
    2 (by decide) (by decide)
  rw [h.1]
  decide

/-- C9: rotate_backups only removes entries, and every entry of the
listing that is not a .7z regular file — in particular every
subdirectory together with its entire nested contents — survives every
rotation call unchanged. -/
theorem rotate_backups_scope_frame (dir : List FsEntry) (k : Nat)
    (hnodup : (dir.map FsEntry.name).Nodup) :
    List.Sublist (rotate_backups dir k) dir ∧
    (∀ e ∈ dir, isCandidate e = false → e ∈ rotate_backups dir k) ∧
    (∀ nm cs, FsEntry.dir nm cs ∈ dir → FsEntry.dir nm cs ∈ rotate_backups dir k) := by
  have hmain : List.Sublist (rotate_backups dir k) dir ∧
      (∀ e ∈ dir, isCandidate e = false → e ∈ rotate_backups dir k) := by
    by_cases hk0 : k = 0
    · subst hk0
      rw [rotate_backups_zero]
      exact ⟨List.Sublist.refl dir, fun e he _ => he⟩
    by_cases hcase : k < (List.insertionSort ctimeLE (dir.filter isCandidate)).length
    case neg =>
      rw [rotate_backups_le dir k (Nat.le_of_not_lt hcase)]
      exact ⟨List.Sublist.refl dir, fun e he _ => he⟩
    case pos =>
    rw [rotate_backups_gt dir k hk0 hcase]
    refine ⟨List.filter_sublist dir, ?_⟩
    intro e he hnc
    apply List.mem_filter.mpr
    refine ⟨he, ?_⟩
    simp only [decide_eq_true_eq]
    intro hmem
    obtain ⟨x, hx, hxname⟩ := List.mem_map.mp hmem
    have hxfiles : x ∈ List.insertionSort ctimeLE (dir.filter isCandidate) :=
      (List.take_sublist _ _).subset hx
    have hxcand : isCandidate x = true :=
      (List.mem_filter.mp (((sortedCand_perm dir).mem_iff).mp hxfiles)).2
    have hxdir : x ∈ dir :=
      (List.mem_filter.mp (((sortedCand_perm dir).mem_iff).mp hxfiles)).1
    have hxe : x = e := List.inj_on_of_nodup_map hnodup hxdir he hxname
    subst hxe
    rw [hnc] at hxcand
    exact Bool.false_ne_true hxcand
  refine ⟨hmain.1, hmain.2, ?_⟩
  intro nm cs hmem
  exact hmain.2 (FsEntry.dir nm cs) hmem (by simp [isCandidate, FsEntry.isFile])

/-- C9 witness: a rotation with max_count = 0 over a listing holding a
subdirectory and a non-archive file keeps both. -/
theorem rotate_backups_scope_frame_witness :
    FsEntry.dir "sub" ["x"] ∈
      rotate_backups [FsEntry.dir "sub" ["x"], FsEntry.file "keep.txt" 5] 1 :=
  (rotate_backups_scope_frame [FsEntry.dir "sub" ["x"], FsEntry.file "keep.txt" 5]
    1 (by decide)).2.2 "sub" ["x"] (by decide)

/-- Outcome of one shutil.copy2 call: it either succeeds, raises
PermissionError (the transient class the source retries), or raises any
other exception (missing path, disk full, ...). -/
inductive AttemptResult where
  | ok
  | permError
  | otherError
deriving DecidableEq

/-- How a call of copy_with_retry ends.  success: the early return on
line 186 after a successful copy.  exhausted: the for loop ran out of
iterations, the function logs and returns None (line 192).  raised: an
exception other than PermissionError escaped to the caller.
invalidArgs: the else branch of line 190 (falsy retries or delay), the
function logs and returns None without ever calling shutil.copy2.  In
Python every non-raised variant returns the same value, None. -/
inductive CopyResult where
  | success
  | exhausted
  | raised
  | invalidArgs
deriving DecidableEq

/-- Observable behaviour of one copy_with_retry call: how many
shutil.copy2 calls were made, how many time.sleep(delay) calls were
made, and how the call ended. -/
structure CopyTrace where
  attempts : Nat
  sleeps : Nat
  result : CopyResult
deriving DecidableEq

/-- The for loop of copy_with_retry (lines 182-189).  env i is the
outcome of the i-th shutil.copy2 call; fuel is the number of remaining
loop iterations, i the next attempt index, sl the sleeps so far. -/
def copyLoop (env : Nat → AttemptResult) : Nat → Nat → Nat → CopyTrace
  | 0, i, sl => ⟨i, sl, .exhausted⟩
  | fuel + 1, i, sl =>
    match env i with
    | .ok => ⟨i + 1, sl, .success⟩
    | .permError => copyLoop env fuel (i + 1) (sl + 1)
    | .otherError => ⟨i + 1, sl, .raised⟩

/-- copy_with_retry (backup.py lines 180-192).  Python truthiness of
the int arguments (if retries and delay) is nonzero-ness; counts and
delays are modelled as naturals (the script always passes 5 and 1). -/
def copy_with_retry (env : Nat → AttemptResult) (retries delay : Nat) : CopyTrace :=
  if retries ≠ 0 ∧ delay ≠ 0 then copyLoop env retries 0 0
  else ⟨0, 0, .invalidArgs⟩

example : copy_with_retry (fun _ => .ok) 5 1 = ⟨1, 0, .success⟩ := by decide

example : copy_with_retry (fun _ => .permError) 5 1 = ⟨5, 5, .exhausted⟩ := by decide

example :
    copy_with_retry (fun i => if i = 0 then .permError else .otherError) 5 1
      = ⟨2, 1, .raised⟩ := by decide

theorem copyLoop_all_perm (env : Nat → AttemptResult)
    (h : ∀ i, env i = .permError) :
    ∀ fuel i sl, copyLoop env fuel i sl = ⟨i + fuel, sl + fuel, .exhausted⟩ := by
  intro fuel
  induction fuel with
  | zero => intro i sl; rfl
  | succ n ih =>
    intro i sl
    rw [copyLoop, h i, ih (i + 1) (sl + 1)]
    simp only [CopyTrace.mk.injEq]
    exact ⟨by omega, by omega, trivial⟩

theorem copyLoop_raised_attempt (env : Nat → AttemptResult) :
    ∀ fuel i sl, (copyLoop env fuel i sl).result = .raised →
      env ((copyLoop env fuel i sl).attempts - 1) = .otherError := by
  intro fuel
  induction fuel with
  | zero => intro i sl h; exact absurd h (by simp [copyLoop])
  | succ n ih =>
    intro i sl h
    cases henv : env i with
    | ok =>
      rw [copyLoop, henv] at h
      exact absurd h (by simp)
    | permError =>
      rw [copyLoop, henv] at h
      rw [copyLoop, henv]
      exact ih (i + 1) (sl + 1) h
    | otherError =>
      rw [copyLoop, henv]
      simpa using henv

/-- C5 counterexample: a policy with max_attempts = 1 ≥ 1 but
delay_between_attempts = 0 falls into the invalid-arguments branch
(if retries and delay is falsy), so zero copy attempts are made and the
call does not succeed even though no copy error would have occurred. -/
theorem copy_with_retry_zero_delay_cex :
    (copy_with_retry (fun _ => .ok) 1 0).attempts = 0 ∧
    (copy_with_retry (fun _ => .ok) 1 0).result ≠ .success := by decide

/-- C5 (amended): when max_attempts ≥ 1 AND delay_between_attempts ≥ 1,
copy_with_retry makes exactly one attempt and returns after the
successful copy when no error occurs; makes exactly max_attempts
attempts, sleeping delay after each failed attempt, and then returns
when every attempt raises PermissionError; and makes exactly one
attempt with no retry when the first attempt raises a non-transient
error, which propagates.  Policies with delay = 0 are treated as
invalid arguments and make zero attempts. -/
theorem copy_with_retry_attempts_amended (env : Nat → AttemptResult)
    (retries delay : Nat) (hr : 1 ≤ retries) (hd : 1 ≤ delay) :
    (env 0 = .ok → copy_with_retry env retries delay = ⟨1, 0, .success⟩) ∧
    ((∀ i, env i = .permError) →
        copy_with_retry env retries delay = ⟨retries, retries, .exhausted⟩) ∧
    (env 0 = .otherError → copy_with_retry env retries delay = ⟨1, 0, .raised⟩) := by
  have hcond : retries ≠ 0 ∧ delay ≠ 0 := ⟨by omega, by omega⟩
  obtain ⟨m, hm⟩ : ∃ m, retries = m + 1 := ⟨retries - 1, by omega⟩
  refine ⟨?_, ?_, ?_⟩
  · intro h0
    rw [copy_with_retry, if_pos hcond, hm, copyLoop, h0]
  · intro hall
    rw [copy_with_retry, if_pos hcond, copyLoop_all_perm env hall]
    simp
  · intro h0
    rw [copy_with_retry, if_pos hcond, hm, copyLoop, h0]

/-- C5 witness: the concrete all-PermissionError environment at the
retry policy the script uses (5 attempts, delay 1) makes exactly five
attempts and returns. -/
theorem copy_with_retry_attempts_amended_witness :
    copy_with_retry (fun _ => .permError) 5 1 = ⟨5, 5, .exhausted⟩ :=
  (copy_with_retry_attempts_amended (fun _ => .permError) 5 1 (by decide)
    (by decide)).2.1 (fun _ => rfl)

/-- C7: copy_with_retry returns None on every non-raising path — the
successful copy, the exhaustion of all attempts by PermissionError, and
zero retries or delay (treated as invalid arguments with zero copy
attempts) — so the caller gets no return-value indication of success
versus failure; an exception escapes only when some attempt raises a
non-PermissionError error, and that attempt is the last one made. -/
theorem copy_with_retry_returns_none (env : Nat → AttemptResult)
    (retries delay : Nat) :
    ((retries = 0 ∨ delay = 0) →
        copy_with_retry env retries delay = ⟨0, 0, .invalidArgs⟩) ∧
    ((retries ≠ 0 ∧ delay ≠ 0 ∧ env 0 = .ok) →
        (copy_with_retry env retries delay).result = .success) ∧
    ((∀ i, env i = .permError) →
        (copy_with_retry env retries delay).result ≠ .raised) ∧
    ((copy_with_retry env retries delay).result = .raised →
        env ((copy_with_retry env retries delay).attempts - 1) = .otherError) := by
  refine ⟨?_, ?_, ?_, ?_⟩
  · intro h
    rw [copy_with_retry, if_neg (by omega)]
  · rintro ⟨h1, _, h0⟩
    rw [copy_with_retry]
    split
    · obtain ⟨m, hm⟩ : ∃ m, retries = m + 1 := ⟨retries - 1, by omega⟩
      rw [hm, copyLoop, h0]
    · simp_all
  · intro hall
    rw [copy_with_retry]
    split
    · rw [copyLoop_all_perm env hall]
      simp
    · simp
  · intro h
    rw [copy_with_retry] at h ⊢
    split at h
    · rw [if_pos (by assumption)]
      exact copyLoop_raised_attempt env retries 0 0 h
    · exact absurd h (by simp)

/-- C7 witness: retries passed as 0 yields the invalid-arguments path,
returning None after zero copy attempts. -/
theorem copy_with_retry_returns_none_witness :
    copy_with_retry (fun _ => .ok) 0 5 = ⟨0, 0, .invalidArgs⟩ :=
  (copy_with_retry_returns_none (fun _ => .ok) 0 5).1 (Or.inl rfl)

/-- What probing one drive root letter yields (backup.py lines
150-177): the root path does not exist, the GetVolumeInformationW call
raises, or it returns a success flag together with the buffer content
read as the volume label. -/
inductive DriveState where
  | absent
  | queryRaises
  | queried (flag : Bool) (label : String)
deriving DecidableEq

/-- string.ascii_uppercase, the enumeration order of drive roots. -/
def asciiUppercase : List Char := "ABCDEFGHIJKLMNOPQRSTUVWXYZ".toList

/-- The match test of line 168: the query returned a nonzero result and
the buffer equals the target label exactly. -/
def labelMatches (target : String) : DriveState → Bool
  | .queried flag label => flag && label == target
  | _ => false

/-- The loop body of is_drive_connected_with_label over the remaining
letters: a missing root is skipped (line 176), a raising query is
skipped via continue (line 175), a queried root is returned when line
168 matches and skipped otherwise. -/
def scanDrives (env : Char → DriveState) (target : String) : List Char → Option Char
  | [] => none
  | c :: rest =>
    match env c with
    | .absent => scanDrives env target rest
    | .queryRaises => scanDrives env target rest
    | .queried flag label =>
      if flag && label == target then some c else scanDrives env target rest

/-- is_drive_connected_with_label (backup.py lines 145-178): scan the
roots A: through Z: in order, returning the first match, None if the
scan finishes without one.  env gives each root's probe outcome; the
returned Char is the drive letter of the root returned on line 170. -/
def is_drive_connected_with_label (env : Char → DriveState) (target : String) :
    Option Char :=
  scanDrives env target asciiUppercase

example :
    is_drive_connected_with_label
      (fun c => if c = 'D' then .queried true "BACKUP" else .absent) "BACKUP"
      = some 'D' := by decide

example :
    is_drive_connected_with_label
      (fun c => if c = 'A' then .queryRaises else
        if c = 'C' then .queried true "BACKUP" else .absent) "BACKUP"
      = some 'C' := by decide

example :
    is_drive_connected_with_label
      (fun _ => .queried true "backup") "BACKUP" = none := by decide

theorem labelMatches_iff (target : String) (s : DriveState) :
    labelMatches target s = true ↔ s = .queried true target := by
  cases s with
  | absent => simp [labelMatches]
  | queryRaises => simp [labelMatches]
  | queried flag label =>
    simp [labelMatches, Bool.and_eq_true, beq_iff_eq, and_comm]

theorem scanDrives_none_iff (env : Char → DriveState) (target : String) :
    ∀ l : List Char, scanDrives env target l = none ↔
      ∀ c ∈ l, labelMatches target (env c) = false := by
  intro l
  induction l with
  | nil => simp [scanDrives]
  | cons c rest ih =>
    cases henv : env c with
    | absent =>
      rw [scanDrives, henv]
      simp only [List.mem_cons]
      constructor
      · intro h x hx
        rcases hx with hx | hx
        · subst hx; rw [henv]; rfl
        · exact (ih.mp h) x hx
      · intro h
        exact ih.mpr (fun x hx => h x (Or.inr hx))
    | queryRaises =>
      rw [scanDrives, henv]
      simp only [List.mem_cons]
      constructor
      · intro h x hx
        rcases hx with hx | hx
        · subst hx; rw [henv]; rfl
        · exact (ih.mp h) x hx
      · intro h
        exact ih.mpr (fun x hx => h x (Or.inr hx))
    | queried flag label =>
      simp only [scanDrives, henv]
      by_cases hmatch : (flag && label == target) = true
      · rw [if_pos hmatch]
        simp only [List.mem_cons]
        constructor
        · intro h; exact absurd h (by simp)
        · intro h
          have := h c (Or.inl rfl)
          rw [henv] at this
          rw [labelMatches] at this
          rw [hmatch] at this
          exact absurd this (by simp)
      · rw [if_neg hmatch]
        simp only [List.mem_cons]
        constructor
        · intro h x hx
          rcases hx with hx | hx
          · subst hx
            rw [henv, labelMatches]
            exact Bool.eq_false_iff.mpr hmatch
          · exact (ih.mp h) x hx
        · intro h
          exact ih.mpr (fun x hx => h x (Or.inr hx))

theorem scanDrives_some (env : Char → DriveState) (target : String) :
    ∀ l : List Char, ∀ c : Char, scanDrives env target l = some c →
      labelMatches target (env c) = true ∧
      ∃ l1 l2, l = l1 ++ c :: l2 ∧ ∀ x ∈ l1, labelMatches target (env x) = false := by
  intro l
  induction l with
  | nil => intro c h; exact absurd h (by simp [scanDrives])
  | cons a rest ih =>
    intro c h
    cases henv : env a with
    | absent =>
      rw [scanDrives, henv] at h
      obtain ⟨h1, l1, l2, hsplit, hpre⟩ := ih c h
      refine ⟨h1, a :: l1, l2, by rw [hsplit]; rfl, ?_⟩
      intro x hx
      rcases List.mem_cons.mp hx with hx | hx
      · subst hx; rw [henv]; rfl
      · exact hpre x hx
    | queryRaises =>
      rw [scanDrives, henv] at h
      obtain ⟨h1, l1, l2, hsplit, hpre⟩ := ih c h
      refine ⟨h1, a :: l1, l2, by rw [hsplit]; rfl, ?_⟩
      intro x hx
      rcases List.mem_cons.mp hx with hx | hx
      · subst hx; rw [henv]; rfl
      · exact hpre x hx
    | queried flag label =>
      simp only [scanDrives, henv] at h
      by_cases hmatch : (flag && label == target) = true
      · rw [if_pos hmatch] at h
        have hc : a = c := by injection h
        subst hc
        refine ⟨by rw [henv, labelMatches]; exact hmatch, [], rest, rfl, ?_⟩
        intro x hx
        exact absurd hx (List.not_mem_nil x)
      · rw [if_neg hmatch] at h
        obtain ⟨h1, l1, l2, hsplit, hpre⟩ := ih c h
        refine ⟨h1, a :: l1, l2, by rw [hsplit]; rfl, ?_⟩
        intro x hx
        rcases List.mem_cons.mp hx with hx | hx
        · subst hx
          rw [henv, labelMatches]
          exact Bool.eq_false_iff.mpr hmatch
        · exact hpre x hx

/-- C6: for every non-empty target label, is_drive_connected_with_label
returns None exactly when no root in the A-Z enumeration matches (a
root that is absent, whose query raises, or whose query fails or
reports a different label — compared case-sensitively — never
matches, so an erroring root is skipped without aborting the scan);
and when it returns a letter, that root was queried successfully with
exactly the target label and every earlier letter in the enumeration
was a non-match. -/
theorem is_drive_connected_first_match (env : Char → DriveState) (target : String)
    (ht : target ≠ "") :
    (is_drive_connected_with_label env target = none ↔
        ∀ c ∈ asciiUppercase, labelMatches target (env c) = false) ∧
    (∀ c, is_drive_connected_with_label env target = some c →
        env c = .queried true target ∧
        ∃ l1 l2, asciiUppercase = l1 ++ c :: l2 ∧
          ∀ x ∈ l1, labelMatches target (env x) = false) := by
  constructor
  · exact scanDrives_none_iff env target asciiUppercase
  · intro c h
    obtain ⟨h1, l1, l2, hsplit, hpre⟩ := scanDrives_some env target asciiUppercase c h
    exact ⟨(labelMatches_iff target (env c)).mp h1, l1, l2, hsplit, hpre⟩

/-- C6 witness: an environment where the root B raises and C carries
the target label; the locator returns C, so the erroring root did not
abort the scan. -/
theorem is_drive_connected_first_match_witness :
    (fun c => if c = 'B' then DriveState.queryRaises else
      if c = 'C' then DriveState.queried true "USB" else DriveState.absent) 'C'
        = DriveState.queried true "USB" :=
  ((is_drive_connected_first_match
    (fun c => if c = 'B' then DriveState.queryRaises else
      if c = 'C' then DriveState.queried true "USB" else DriveState.absent)
    "USB" (by decide)).2 'C' (by decide)).1

/-- Environment of one run_mode_directory call: whether os.makedirs on
the output path raises, the per-attempt outcomes of the copy, and the
output directory listing and retention count fed to rotate_backups. -/
structure DirEnv where
  makedirsRaises : Bool
  copyEnv : Nat → AttemptResult
  listing : List FsEntry
  count : Nat

/-- How run_mode_directory ends: it reaches its final log line, or an
exception was caught on line 224 and sys.exit() terminated the whole
process (line 226). -/
inductive DirOutcome where
  | completed
  | exitedProcess
deriving DecidableEq

/-- Observable behaviour of run_mode_directory: the trace of the
copy_with_retry call when one was made, the rotated listing when
rotate_backups was invoked, and how the call ended. -/
structure DirResult where
  copyTrace : Option CopyTrace
  rotationRun : Option (List FsEntry)
  outcome : DirOutcome
deriving DecidableEq

/-- run_mode_directory (backup.py lines 217-227): makedirs, then
copy_with_retry with retries=5 and delay=1, then rotate_backups —
unconditionally, because copy_with_retry returns None whether or not
the copy happened; only a raised non-PermissionError exception skips
rotation, is caught by the except on line 224, and exits the process.
rotate_backups never raises (it catches all its own exceptions). -/
def run_mode_directory (env : DirEnv) : DirResult :=
  if env.makedirsRaises then ⟨none, none, .exitedProcess⟩
  else
    let tr := copy_with_retry env.copyEnv 5 1
    match tr.result with
    | .raised => ⟨some tr, none, .exitedProcess⟩
    | _ => ⟨some tr, some (rotate_backups env.listing env.count), .completed⟩

/-- C2 counterexample: when every copy attempt raises PermissionError,
copy_with_retry exhausts its five attempts and fails, yet
run_mode_directory still invokes rotate_backups and completes as if
successful — rotation is not gated on copy success and the copy
failure is not reported. -/
theorem run_mode_directory_rotates_after_failed_copy_cex :
    (run_mode_directory ⟨false, fun _ => .permError, [], 3⟩).copyTrace
        = some ⟨5, 5, .exhausted⟩ ∧
    (run_mode_directory ⟨false, fun _ => .permError, [], 3⟩).rotationRun.isSome
        = true ∧
    (run_mode_directory ⟨false, fun _ => .permError, [], 3⟩).outcome
        = .completed := by decide

/-- C2 (amended): run_mode_directory invokes rotate_backups exactly
when makedirs did not raise and copy_with_retry returned normally —
including when every attempt failed with PermissionError — and it
terminates the destination (by exiting the process) exactly when
makedirs raised or the copy raised a non-PermissionError exception. -/
theorem run_mode_directory_rotation_amended (env : DirEnv) :
    ((run_mode_directory env).rotationRun.isSome = true ↔
        env.makedirsRaises = false ∧
        (copy_with_retry env.copyEnv 5 1).result ≠ .raised) ∧
    ((run_mode_directory env).outcome = .exitedProcess ↔
        env.makedirsRaises = true ∨
        (copy_with_retry env.copyEnv 5 1).result = .raised) := by
  by_cases hmk : env.makedirsRaises
  · rw [run_mode_directory, if_pos hmk]
    simp [hmk]
  · rw [run_mode_directory, if_neg hmk]
    rcases hres : (copy_with_retry env.copyEnv 5 1).result with _ | _ | _ | _ <;>
      simp_all

/-- C2 witness: with a first-attempt success, rotation runs. -/
theorem run_mode_directory_rotation_amended_witness :
    (run_mode_directory ⟨false, fun _ => .ok, [], 3⟩).rotationRun.isSome = true :=
  (run_mode_directory_rotation_amended ⟨false, fun _ => .ok, [], 3⟩).1.mpr
    ⟨rfl, by decide⟩

/-- Aggregate behaviour of the destination_type == "both" branch of
main (backup.py lines 292-295): whether the drive leg was reached. -/
structure BothResult where
  dirResult : DirResult
  driveLegRan : Bool
deriving DecidableEq

/-- The "both" branch of main: run_mode_directory first; if it called
sys.exit() the process is gone and run_mode_drive on line 294 never
executes; otherwise the drive leg runs. -/
def run_mode_both (env : DirEnv) : BothResult :=
  let d := run_mode_directory env
  match d.outcome with
  | .exitedProcess => ⟨d, false⟩
  | .completed => ⟨d, true⟩

/-- C3 counterexample: when the directory leg fails (here: makedirs
raises), run_mode_directory exits the whole process, so the drive leg
is never executed and no aggregate of both sub-outcomes exists. -/
theorem run_mode_both_skips_drive_cex :
    (run_mode_both ⟨true, fun _ => .ok, [], 3⟩).dirResult.outcome
        = .exitedProcess ∧
    (run_mode_both ⟨true, fun _ => .ok, [], 3⟩).driveLegRan = false := by decide

/-- C3 (amended): in "both" mode the drive leg runs exactly when the
directory leg completed without an exception (which includes runs whose
copy silently failed); when the directory leg raises, sys.exit()
terminates the process and the drive leg never runs, and no aggregate
outcome reporting both legs is produced. -/
theorem run_mode_both_amended (env : DirEnv) :
    (run_mode_both env).dirResult = run_mode_directory env ∧
    ((run_mode_both env).driveLegRan = true ↔
        (run_mode_directory env).outcome = .completed) := by
  rw [run_mode_both]
  rcases hout : (run_mode_directory env).outcome with _ | _ <;> simp_all

/-- C3 witness: a directory leg that completes lets the drive leg
run. -/
theorem run_mode_both_amended_witness :
    (run_mode_both ⟨false, fun _ => .ok, [], 3⟩).driveLegRan = true :=
  (run_mode_both_amended ⟨false, fun _ => .ok, [], 3⟩).2.mpr (by decide)

/-- Environment of one main() run, pre-dispatch (backup.py lines
256-280): whether tools/7za.exe exists, whether the os.system call
raises, the exit code os.system returned, and whether the archive file
exists at tmp_file_path afterwards. -/
structure MainEnv where
  toolExists : Bool
  producerRaises : Bool
  producerExitCode : Int
  archiveExists : Bool
deriving DecidableEq

/-- Where main gets to before the destination dispatch. -/
inductive MainPhase where
  | exitedNoTool
  | exitedProducerError
  | dispatched
deriving DecidableEq

/-- The pre-dispatch part of main (backup.py lines 256-284): exit if
the 7za.exe binary is missing (lines 262-264), exit if os.system raises
(lines 278-280), and otherwise fall through to the destination
dispatch.  The os.system return value is never inspected and the
existence of the archive at tmp_file_path is never checked. -/
def main_preflight (env : MainEnv) : MainPhase :=
  if env.toolExists = false then .exitedNoTool
  else if env.producerRaises then .exitedProducerError
  else .dispatched

/-- C4 counterexample: with the archiver binary present, os.system
returning a non-zero exit code, and no archive file produced, main
still dispatches to the destinations — there is no archive-existence
or exit-code check before dispatch. -/
theorem main_preflight_dispatches_without_archive_cex :
    main_preflight ⟨true, false, 1, false⟩ = .dispatched ∧
    (⟨true, false, 1, false⟩ : MainEnv).archiveExists = false ∧
    (⟨true, false, 1, false⟩ : MainEnv).producerExitCode ≠ 0 := by decide

/-- C4 (amended): main fails fast before dispatch only when the
7za.exe binary is missing or the os.system call raises; the producer
exit code and the existence of the archive file are never examined, so
the pre-dispatch phase is independent of both and dispatch proceeds
even when the archive is missing or the producer exited non-zero. -/
theorem main_preflight_amended (env : MainEnv) :
    (main_preflight env = .dispatched ↔
        env.toolExists = true ∧ env.producerRaises = false) ∧
    (∀ code arch,
        main_preflight ⟨env.toolExists, env.producerRaises, code, arch⟩
          = main_preflight env) := by
  constructor
  · rw [main_preflight]
    rcases env with ⟨tool, praise, code, arch⟩
    cases tool <;> cases praise <;> simp [main_preflight]
  · intro code arch
    rw [main_preflight, main_preflight]

/-- C4 witness: a run with the tool present and a producer that does
not raise dispatches, whatever the artifacts look like. -/
theorem main_preflight_amended_witness :
    main_preflight ⟨true, false, 0, true⟩ = .dispatched :=
  (main_preflight_amended ⟨true, false, 0, true⟩).1.mpr ⟨rfl, rfl⟩

/-- Environment of one iteration of the run_mode_drive while loop
(backup.py lines 231-249): the drive probe outcomes seen by the
is_drive_connected_with_label call of this iteration, whether makedirs
on the resolved backup directory raises, and the per-attempt copy
outcomes of this iteration. -/
structure DriveIter where
  drives : Char → DriveState
  makedirsRaises : Bool
  copyEnv : Nat → AttemptResult

/-- What one loop iteration does: keep waiting (volume not found, line
248), retry after a caught post-discovery exception (line 244), or
break out of the loop with the drive letter used (line 243). -/
inductive DriveStepOutcome where
  | waiting
  | retrying
  | finished (c : Char)
deriving DecidableEq

/-- One iteration of the run_mode_drive loop: poll the locator; on a
match run makedirs, copy_with_retry (retries=5, delay=1) and
rotate_backups inside the try of lines 235-243, breaking on success;
any exception is caught on line 244 and the loop re-entered after a
sleep.  rotate_backups never raises, so only makedirs or a
non-PermissionError copy error can force a retry. -/
def driveIterStep (label : String) (it : DriveIter) : DriveStepOutcome :=
  match is_drive_connected_with_label it.drives label with
  | none => .waiting
  | some c =>
    if it.makedirsRaises then .retrying
    else
      match (copy_with_retry it.copyEnv 5 1).result with
      | .raised => .retrying
      | _ => .finished c

/-- run_mode_drive (backup.py lines 229-250) bounded by fuel loop
iterations: env i is the world as seen by iteration i.  Returns the
iteration index and drive letter at which the loop broke, or none if
the loop is still running after fuel iterations (the source loop has
no other exit). -/
def run_mode_drive (label : String) (env : Nat → DriveIter) :
    Nat → Nat → Option (Nat × Char)
  | 0, _ => none
  | fuel + 1, i =>
    match driveIterStep label (env i) with
    | .finished c => some (i, c)
    | _ => run_mode_drive label env fuel (i + 1)

/-- C8: in drive mode an error after the volume has been found (the
makedirs or the copy raising) makes the iteration a retrying one, a
retrying iteration re-enters the loop — whose next iteration polls the
volume locator again — and the loop only ever terminates through a
fully successful iteration, so a post-discovery error never produces a
terminal failure. -/
theorem run_mode_drive_reenters_polling (label : String) (env : Nat → DriveIter) :
    (∀ it : DriveIter, ∀ c : Char,
        is_drive_connected_with_label it.drives label = some c →
        it.makedirsRaises = true ∨ (copy_with_retry it.copyEnv 5 1).result = .raised →
        driveIterStep label it = .retrying) ∧
    (∀ fuel i, driveIterStep label (env i) = .retrying →
        run_mode_drive label env (fuel + 1) i = run_mode_drive label env fuel (i + 1)) ∧
    (∀ fuel i j c, run_mode_drive label env fuel i = some (j, c) →
        driveIterStep label (env j) = .finished c) := by
  refine ⟨?_, ?_, ?_⟩
  · intro it c hfound herr
    simp only [driveIterStep, hfound]
    rcases herr with herr | herr
    · rw [if_pos herr]
    · by_cases hmk : it.makedirsRaises = true
      · rw [if_pos hmk]
      · rw [if_neg hmk, herr]
  · intro fuel i hstep
    rw [run_mode_drive, hstep]
  · intro fuel
    induction fuel with
    | zero => intro i j c h; exact absurd h (by simp [run_mode_drive])
    | succ n ih =>
      intro i j c h
      rcases hstep : driveIterStep label (env i) with _ | _ | c2
      · rw [run_mode_drive, hstep] at h
        exact ih (i + 1) j c h
      · rw [run_mode_drive, hstep] at h
        exact ih (i + 1) j c h
      · rw [run_mode_drive, hstep] at h
        simp only [Option.some.injEq, Prod.mk.injEq] at h
        obtain ⟨hj, hc⟩ := h
        subst hj
        subst hc
        exact hstep

/-- C8 witness: a first iteration that finds the volume at C but whose
copy raises a non-transient error is a retrying iteration. -/
theorem run_mode_drive_reenters_polling_witness :
    driveIterStep "USB"
      ⟨fun c => if c = 'C' then DriveState.queried true "USB" else DriveState.absent,
       false, fun _ => AttemptResult.otherError⟩ = .retrying :=
  (run_mode_drive_reenters_polling "USB"
    (fun _ =>
      ⟨fun c => if c = 'C' then DriveState.queried true "USB" else DriveState.absent,
       false, fun _ => AttemptResult.otherError⟩)).1
    ⟨fun c => if c = 'C' then DriveState.queried true "USB" else DriveState.absent,
       false, fun _ => AttemptResult.otherError⟩
    'C' (by decide) (Or.inr (by decide))

/-- The drive_name validation of the Config class (backup.py lines
129-131): the length check only logs an error — unlike the sibling
checks, no sys.exit() and no truncation follows — and the stored
drive_config_drive_name keeps the original value. -/
structure DriveNameCheck where
  errorLogged : Bool
  exitsProcess : Bool
  drive_name_used : String
deriving DecidableEq

def validate_drive_name (drive_name : String) : DriveNameCheck :=
  ⟨decide (32 ≤ drive_name.length), false, drive_name⟩

/-- C10: a 32-character drive label is flagged as an error by config
validation (line 130 fires and logs), yet the configuration is neither
rejected nor truncated — validation does not exit and the core keeps
operating with the over-long label, contradicting the documented
intent of the check. -/
theorem validate_drive_name_overlong_bug :
    (validate_drive_name "AAAAAAAAAAAAAAAAAAAAAAAAAAAAAAAA").errorLogged = true ∧
    (validate_drive_name "AAAAAAAAAAAAAAAAAAAAAAAAAAAAAAAA").exitsProcess = false ∧
    (validate_drive_name "AAAAAAAAAAAAAAAAAAAAAAAAAAAAAAAA").drive_name_used
        = "AAAAAAAAAAAAAAAAAAAAAAAAAAAAAAAA" ∧
    31 < ("AAAAAAAAAAAAAAAAAAAAAAAAAAAAAAAA" : String).length := by decide

end BackupScript
